import Mathlib

/-!
# Marshalling layer of the glirc Lua extension (`lua-extension/include/glirc-marshal.h`)

The header defines two inline functions, `get_glirc` and `set_glirc`, which read and write
the `struct glirc *` kept in the extra space of a `lua_State`, and declares the marshalling
functions `push_glirc_string`, `get_glirc_string`, `import_string_array`, `push_glirc_chat`,
`push_glirc_message` and `push_glirc_command`, whose bodies live in another translation unit.

The development below embeds the two inline functions directly and models the declared
functions from their written contract.
-/

namespace Glirc

/-! ## Data model -/

/-- Value of a `struct glirc *`: the opaque host handle. The null pointer is `0`. -/
abbrev Handle := Nat

/-- The null handle. -/
def NULL : Handle := 0

/-- Value of a `lua_State *`: one interpreter instance. -/
abbrev lua_State := Nat

/-- Address of a pointer-sized memory cell. -/
abbrev Addr := Nat

/-- One byte. -/
abbrev Byte := Fin 256

/-- Error kinds of the marshalling layer. -/
inductive Error where
  | TypeMismatch
  | ArityMismatch
  | UnboundHandle
  deriving DecidableEq, Repr

/-- Values of the scripting runtime: strings of raw bytes, ordered sequences and records with
named fields, next to the other dynamically typed values (nil, numbers). -/
inductive ScriptValue where
  | nil
  | number (n : Int)
  | string (bytes : List Byte)
  | sequence (elems : List ScriptValue)
  | record (fields : List (String × ScriptValue))

/-- State the functions of the header act on: the memory cells that hold the extra space of
the interpreter instances, and the value stack of each interpreter instance (bottom first,
the top of the stack is the last element). -/
structure Machine where
  mem : Addr → Handle
  stack : lua_State → List ScriptValue

/-! ## Handle registry: `get_glirc` and `set_glirc`

`lua_getextraspace` is a macro of `lua.h`; it maps a `lua_State *` to the address of the raw
memory area associated with that state. It is taken as a parameter. -/

/-- Embedding of
`static inline struct glirc *get_glirc(lua_State *L) { return *(struct glirc **)lua_getextraspace(L); }`.
The body is a single `return` of the cell's content: there is no guard and no error path, and
no store, so the call returns normally with the state it was given. -/
def get_glirc (lua_getextraspace : lua_State → Addr) (M : Machine) (L : lua_State) :
    Except Error (Handle × Machine) :=
  Except.ok (M.mem (lua_getextraspace L), M)

/-- Embedding of
`static inline void set_glirc(lua_State *L, struct glirc *G) { *(struct glirc **)lua_getextraspace(L) = G; }`:
one store of `G` into the cell at `lua_getextraspace(L)`. -/
def set_glirc (lua_getextraspace : lua_State → Addr) (M : Machine) (L : lua_State)
    (G : Handle) : Machine :=
  { M with mem := fun a => if a = lua_getextraspace L then G else M.mem a }

/-- A sequence of `set_glirc` calls, executed in order from the state `M`. -/
def run_set_glirc (lua_getextraspace : lua_State → Addr) (M : Machine) :
    List (lua_State × Handle) → Machine
  | [] => M
  | (L, G) :: rest => run_set_glirc lua_getextraspace (set_glirc lua_getextraspace M L G) rest

/-- The handles returned by `n` consecutive `get_glirc` calls on `L`, each call running in the
state left by the previous one, together with the state after the last call. -/
def get_glirc_repeat (lua_getextraspace : lua_State → Addr) :
    Nat → Machine → lua_State → Except Error (List Handle × Machine)
  | 0, M, _ => Except.ok ([], M)
  | n + 1, M, L =>
    match get_glirc lua_getextraspace M L with
    | Except.error e => Except.error e
    | Except.ok (h, M1) =>
      match get_glirc_repeat lua_getextraspace n M1 L with
      | Except.error e => Except.error e
      | Except.ok (hs, M2) => Except.ok (h :: hs, M2)

/-- A machine in which every extra-space cell holds the value `v` and every stack is empty. -/
def fresh (v : Handle) : Machine :=
  { mem := fun _ => v, stack := fun _ => [] }

/-! ## Value stack -/

/-- Push one value on top of the stack of `L`, as the push functions of the Lua API do; every
other stack and the memory are kept. -/
def lua_push (M : Machine) (L : lua_State) (v : ScriptValue) : Machine :=
  { M with stack := fun K => if K = L then M.stack K ++ [v] else M.stack K }

/-- The value on top of the stack of `L`, if the stack is not empty. -/
def top (M : Machine) (L : lua_State) : Option ScriptValue :=
  (M.stack L).getLast?

/-- The value at stack position `i`: a positive `i` counts from the bottom of the stack
(position `1` is the bottom), a negative `i` counts from the top (position `-1` is the top).
Position `0` and positions outside the stack hold no value. -/
def value_at (stk : List ScriptValue) (i : Int) : Option ScriptValue :=
  if 0 < i then stk[i.toNat - 1]?
  else if i < 0 ∧ i.natAbs ≤ stk.length then stk[stk.length - i.natAbs]?
  else none

/-! ## Byte-string adapter -/

/-- Modelled from the spec: `struct glirc_string` is declared in `glirc-api.h`, which is
missing from the sources at hand. The spec describes RawBytes as a `(pointer, length)` pair
in which the length is the authoritative extent and no terminating zero byte is assumed.
`str` lists the bytes that can be read from the pointer on, `len` is the length field. -/
structure glirc_string where
  str : List Byte
  len : Nat

/-- The buffer a `glirc_string` denotes: the first `len` bytes at `str`. -/
def glirc_string.bytes (s : glirc_string) : List Byte :=
  s.str.take s.len

/-- Modelled from the spec: the body of `push_glirc_string` is missing (only its declaration
`void push_glirc_string(lua_State *L, const struct glirc_string *s)` is in the header). Per the
spec, export copies `length` bytes starting at `pointer` into a freshly allocated script-owned
string value, for any byte content; the header's signature places the value on the stack
of `L`. -/
def push_glirc_string (M : Machine) (L : lua_State) (s : glirc_string) : Machine :=
  lua_push M L (ScriptValue.string s.bytes)

/-- What a call `get_glirc_string(L, i, &s)` leaves behind: whether it succeeded, the content
of the output structure `s` after the call, and the state after the call. -/
structure ImportResult where
  status : Except Error Unit
  s : glirc_string
  state : Machine

/-- Modelled from the spec: the body of `get_glirc_string` is missing (only its declaration
`int get_glirc_string(lua_State *L, int i, struct glirc_string *s)` is in the header). Per the
spec, import reads the value at the given position; on success it produces a
`(pointer, length)` view of the string's bytes in interpreter-owned storage, and it fails with
`TypeMismatch` if the value at that position is not a string; an import either fully succeeds
or fails with no persisted side effect. -/
def get_glirc_string (M : Machine) (L : lua_State) (i : Int) (s : glirc_string) :
    ImportResult :=
  match value_at (M.stack L) i with
  | some (ScriptValue.string bytes) =>
    { status := Except.ok (), s := { str := bytes, len := bytes.length }, state := M }
  | _ => { status := Except.error Error.TypeMismatch, s := s, state := M }

/-! ## Array importer -/

/-- Length of a C string as `strlen` computes it: the number of bytes before the first zero
byte. `cs` lists the bytes that can be read from the pointer on. -/
def strlen (cs : List Byte) : Nat :=
  (cs.takeWhile (fun b => b ≠ 0)).length

/-- The script string the array importer makes of one C string: the export, through the
byte-string adapter, of the buffer that starts at the pointer and has the length `strlen`
gives. -/
def import_entry (cs : List Byte) : ScriptValue :=
  ScriptValue.string (glirc_string.bytes { str := cs, len := strlen cs })

/-- The walk of the array importer over the entries that can be read from `list` on: `none` is
a null pointer entry, `some cs` a pointer to the C string `cs`. The walk starts at index 0,
stops at the first null pointer entry, and exports each entry before it. An array with no null
pointer entry is outside the contract; the walk then ends with the readable entries. -/
def import_walk : List (Option (List Byte)) → List ScriptValue
  | [] => []
  | none :: _ => []
  | some cs :: rest => import_entry cs :: import_walk rest

/-- Modelled from the spec: the body of `import_string_array` is missing (only its declaration
`void import_string_array(lua_State *L, char **list)` is in the header). Per the spec, the
array importer walks the host pointer array from index 0 until it meets a null pointer entry,
treats each entry before it as a zero-terminated C string, and produces an ordered script
sequence of script strings in source order; the header's signature places the sequence on the
stack of `L`. -/
def import_string_array (M : Machine) (L : lua_State) (list : List (Option (List Byte))) :
    Machine :=
  lua_push M L (ScriptValue.sequence (import_walk list))

/-! ## Struct projectors -/

/-- One field of a host struct: a single RawBytes field or a RawBytes-array field. -/
inductive HostField where
  | bytes (s : glirc_string)
  | array (xs : List glirc_string)

/-- The two kinds of field. -/
inductive FieldKind where
  | bytes
  | array
  deriving DecidableEq, Repr

/-- The kind of a field. -/
def HostField.kind : HostField → FieldKind
  | HostField.bytes _ => FieldKind.bytes
  | HostField.array _ => FieldKind.array

/-- The field of the same kind with empty content. -/
def HostField.blank : HostField → HostField
  | HostField.bytes _ => HostField.bytes { str := [], len := 0 }
  | HostField.array _ => HostField.array []

/-- Modelled from the spec: `struct glirc_chat`, `struct glirc_message` and
`struct glirc_command` are declared in `glirc-api.h`, which is missing from the sources at
hand, and the spec leaves their exact field sets open. It describes each host struct as a
fixed sequence of fields of kind RawBytes or RawBytes-array, each with a public field name.
A host struct is the list of its fields in declaration order, each with its name. -/
abbrev HostStruct := List (String × HostField)

/-- Host struct of a chat event. -/
abbrev glirc_chat := HostStruct

/-- Host struct of a message. -/
abbrev glirc_message := HostStruct

/-- Host struct of a command. -/
abbrev glirc_command := HostStruct

/-- The layout of a host struct: its field names and kinds, in declaration order. -/
def layout (hs : HostStruct) : List (String × FieldKind) :=
  hs.map (fun f => (f.1, f.2.kind))

/-- The field names of a host struct, in declaration order. -/
def field_names (hs : HostStruct) : List String :=
  hs.map (fun f => f.1)

/-- The host struct of the same layout in which every field is empty. -/
def blank (hs : HostStruct) : HostStruct :=
  hs.map (fun f => (f.1, f.2.blank))

/-- Store `v` under the key `k` of a record: an existing field of that name is replaced,
otherwise the field is added after the existing ones. -/
def setfield : List (String × ScriptValue) → String → ScriptValue → List (String × ScriptValue)
  | [], k, v => [(k, v)]
  | (k1, v1) :: rest, k, v =>
    if k1 = k then (k, v) :: rest else (k1, v1) :: setfield rest k v

/-- Read the field named `k` of a record, if the record has one. -/
def getfield : List (String × ScriptValue) → String → Option ScriptValue
  | [], _ => none
  | (k1, v1) :: rest, k => if k1 = k then some v1 else getfield rest k

/-- The script value of one field: a RawBytes field goes through the byte-string adapter, a
RawBytes-array field becomes the sequence of its elements, each through the byte-string
adapter, in order. -/
def project_field : HostField → ScriptValue
  | HostField.bytes s => ScriptValue.string s.bytes
  | HostField.array xs => ScriptValue.sequence (xs.map (fun s => ScriptValue.string s.bytes))

/-- The record of a host struct: starting from the empty record, each field in declaration
order is stored under its field name. -/
def project (hs : HostStruct) : ScriptValue :=
  ScriptValue.record (hs.foldl (fun acc f => setfield acc f.1 (project_field f.2)) [])

/-- Modelled from the spec: the body of `push_glirc_chat` is missing (only its declaration
`void push_glirc_chat(lua_State *L, const struct glirc_chat *chat)` is in the header). Per the
spec, a projector produces a record with one named field per struct field, each field
converted according to its declared shape; the header's signature places the record on the
stack of `L`. -/
def push_glirc_chat (M : Machine) (L : lua_State) (chat : glirc_chat) : Machine :=
  lua_push M L (project chat)

/-- Modelled from the spec: the body of `push_glirc_message` is missing (only its declaration
`void push_glirc_message(lua_State *L, const struct glirc_message *msg)` is in the header).
Per the spec, a projector produces a record with one named field per struct field, each field
converted according to its declared shape, the parameter list in order; the header's signature
places the record on the stack of `L`. -/
def push_glirc_message (M : Machine) (L : lua_State) (msg : glirc_message) : Machine :=
  lua_push M L (project msg)

/-- Modelled from the spec: the body of `push_glirc_command` is missing (only its declaration
`void push_glirc_command(lua_State *L, const struct glirc_command *cmd)` is in the header).
Per the spec, a projector produces a record with one named field per struct field, each field
converted according to its declared shape; the header's signature places the record on the
stack of `L`. -/
def push_glirc_command (M : Machine) (L : lua_State) (cmd : glirc_command) : Machine :=
  lua_push M L (project cmd)

/-- The last field named `k` of a host struct, if there is one. -/
def field_of : HostStruct → String → Option HostField
  | [], _ => none
  | (k1, f) :: rest, k =>
    match field_of rest k with
    | some g => some g
    | none => if k1 = k then some f else none

/-- The keys of the record on top of the stack of `L`, if the top of the stack is a record. -/
def pushed_keys (M : Machine) (L : lua_State) : Option (List String) :=
  match top M L with
  | some (ScriptValue.record fields) => some (fields.map (fun f => f.1))
  | _ => none

/-- The bytes of `alice`. -/
def bytes_alice : List Byte := [97, 108, 105, 99, 101]

/-- The bytes of `#room`. -/
def bytes_room : List Byte := [35, 114, 111, 111, 109]

/-- The eight bytes of `hi`, a zero byte, `there`. -/
def bytes_hi_there : List Byte := [104, 105, 0, 116, 104, 101, 114, 101]

/-- The host message of the example scenario: sender `alice`, parameters `#room` and
`hi\0there`. Each buffer is followed in memory by a zero byte that its length leaves out. -/
def example_message : glirc_message :=
  [("sender", HostField.bytes { str := bytes_alice ++ [0], len := 5 }),
   ("params", HostField.array
      [{ str := bytes_room ++ [0], len := 5 }, { str := bytes_hi_there ++ [0], len := 8 }])]

/-- The buffer `hi\0there` of eight bytes, with an embedded zero byte. -/
def buffer_hi_there : glirc_string := { str := bytes_hi_there ++ [0], len := 8 }

/-- The empty buffer: a null pointer with length zero. -/
def buffer_empty : glirc_string := { str := [], len := 0 }

/-- A machine whose instance 1 has a number at position 1 and a record at position 2. -/
def machine_number_record : Machine :=
  lua_push (lua_push (fresh NULL) 1 (ScriptValue.number 3)) 1 (ScriptValue.record [])

/-- A host message of the same layout as `example_message` with other content. -/
def other_message : glirc_message :=
  [("sender", HostField.bytes { str := bytes_room, len := 3 }),
   ("params", HostField.array [])]

/-! ## Theorems: handle registry -/

/-- A sequence of `set_glirc` calls none of which addresses the cell `a` leaves that cell as
it was. -/
theorem run_set_glirc_mem_of_not_called (ext : lua_State → Addr) (calls : List (lua_State × Handle))
    (a : Addr) :
    ∀ M : Machine, (∀ c ∈ calls, ext c.1 ≠ a) → (run_set_glirc ext M calls).mem a = M.mem a := by
  induction calls with
  | nil => intro M _; rfl
  | cons c rest ih =>
    intro M h
    obtain ⟨K, G⟩ := c
    have hK : ext K ≠ a := h (K, G) (List.mem_cons_self _ _)
    have hrest : ∀ c ∈ rest, ext c.1 ≠ a := fun c hc => h c (List.mem_cons_of_mem _ hc)
    show (run_set_glirc ext (set_glirc ext M K G) rest).mem a = M.mem a
    rw [ih (set_glirc ext M K G) hrest]
    show (if a = ext K then G else M.mem a) = M.mem a
    rw [if_neg (fun e => hK e.symm)]

/-- C1: for every interpreter instance `L` and every handle `G`, the null handle included,
`get_glirc(L)` evaluated right after `set_glirc(L, G)` returns exactly `G` (and leaves the
state as `set_glirc` left it). -/
theorem get_glirc_set_glirc (ext : lua_State → Addr) (M : Machine) (L : lua_State) (G : Handle) :
    get_glirc ext (set_glirc ext M L G) L = Except.ok (G, set_glirc ext M L G)
    ∧ get_glirc ext (set_glirc ext M L NULL) L = Except.ok (NULL, set_glirc ext M L NULL) := by
  constructor <;> simp [get_glirc, set_glirc]

/-- C2: after `set_glirc(L, H)` followed by `set_glirc(L, H2)`, `get_glirc(L)` returns `H2`,
and the state is the one a single `set_glirc(L, H2)` produces: the earlier binding has no
influence. -/
theorem set_glirc_last_bind_wins (ext : lua_State → Addr) (M : Machine) (L : lua_State)
    (H H2 : Handle) :
    get_glirc ext (set_glirc ext (set_glirc ext M L H) L H2) L
        = Except.ok (H2, set_glirc ext (set_glirc ext M L H) L H2)
    ∧ set_glirc ext (set_glirc ext M L H) L H2 = set_glirc ext M L H2 := by
  have hstate : set_glirc ext (set_glirc ext M L H) L H2 = set_glirc ext M L H2 := by
    simp only [set_glirc]
    congr 1
    funext a
    by_cases h : a = ext L <;> simp [h]
  refine ⟨?_, hstate⟩
  simp [get_glirc, set_glirc]

/-- C3: for two interpreter instances `L1` and `L2` with distinct extra-space slots,
`set_glirc(L1, G)` leaves the result of `get_glirc(L2)` unchanged; and after
`set_glirc(L1, H1)` and `set_glirc(L2, H2)`, in either order, `get_glirc(L1)` returns `H1` and
`get_glirc(L2)` returns `H2`. -/
theorem set_glirc_frame (ext : lua_State → Addr) (M : Machine) (L1 L2 : lua_State)
    (G H1 H2 : Handle) (hslot : ext L1 ≠ ext L2) :
    (∃ h, get_glirc ext M L2 = Except.ok (h, M)
        ∧ get_glirc ext (set_glirc ext M L1 G) L2 = Except.ok (h, set_glirc ext M L1 G))
    ∧ get_glirc ext (set_glirc ext (set_glirc ext M L1 H1) L2 H2) L1
        = Except.ok (H1, set_glirc ext (set_glirc ext M L1 H1) L2 H2)
    ∧ get_glirc ext (set_glirc ext (set_glirc ext M L1 H1) L2 H2) L2
        = Except.ok (H2, set_glirc ext (set_glirc ext M L1 H1) L2 H2)
    ∧ get_glirc ext (set_glirc ext (set_glirc ext M L2 H2) L1 H1) L1
        = Except.ok (H1, set_glirc ext (set_glirc ext M L2 H2) L1 H1)
    ∧ get_glirc ext (set_glirc ext (set_glirc ext M L2 H2) L1 H1) L2
        = Except.ok (H2, set_glirc ext (set_glirc ext M L2 H2) L1 H1) := by
  have h21 : ext L2 ≠ ext L1 := fun e => hslot e.symm
  refine ⟨⟨M.mem (ext L2), rfl, ?_⟩, ?_, ?_, ?_, ?_⟩ <;>
    simp [get_glirc, set_glirc, hslot, h21]

/-- Witness of C3: two instances whose slots are the cells 1 and 2. -/
theorem set_glirc_frame_witness :
    (∃ h, get_glirc (fun L => L) (fresh 7) 2 = Except.ok (h, fresh 7)
        ∧ get_glirc (fun L => L) (set_glirc (fun L => L) (fresh 7) 1 5) 2
            = Except.ok (h, set_glirc (fun L => L) (fresh 7) 1 5))
    ∧ get_glirc (fun L => L) (set_glirc (fun L => L) (set_glirc (fun L => L) (fresh 7) 1 11) 2 22) 1
        = Except.ok (11, set_glirc (fun L => L) (set_glirc (fun L => L) (fresh 7) 1 11) 2 22)
    ∧ get_glirc (fun L => L) (set_glirc (fun L => L) (set_glirc (fun L => L) (fresh 7) 1 11) 2 22) 2
        = Except.ok (22, set_glirc (fun L => L) (set_glirc (fun L => L) (fresh 7) 1 11) 2 22)
    ∧ get_glirc (fun L => L) (set_glirc (fun L => L) (set_glirc (fun L => L) (fresh 7) 2 22) 1 11) 1
        = Except.ok (11, set_glirc (fun L => L) (set_glirc (fun L => L) (fresh 7) 2 22) 1 11)
    ∧ get_glirc (fun L => L) (set_glirc (fun L => L) (set_glirc (fun L => L) (fresh 7) 2 22) 1 11) 2
        = Except.ok (22, set_glirc (fun L => L) (set_glirc (fun L => L) (fresh 7) 2 22) 1 11) :=
  set_glirc_frame (fun L => L) (fresh 7) 1 2 5 11 22 (by decide)

/-- C4 as stated fails: on the instance 1 of a machine on which `set_glirc` was never called
and whose slots hold the null pointer, `get_glirc` returns the null handle as a normal result
and does not end in `UnboundHandle`. -/
theorem get_glirc_unbound_returns :
    get_glirc (fun L => L) (run_set_glirc (fun L => L) (fresh NULL) []) 1
        = Except.ok (NULL, fresh NULL)
    ∧ get_glirc (fun L => L) (run_set_glirc (fun L => L) (fresh NULL) []) 1
        ≠ Except.error Error.UnboundHandle := by
  constructor
  · rfl
  · intro h
    cases h

/-- C4 (amended): when every interpreter instance has its own extra-space slot and
`set_glirc` has never been called on `L`, `get_glirc(L)` returns, as a normal result, the
content the slot of `L` had initially, whatever it is; it does not end in an error. -/
theorem get_glirc_never_bound (ext : lua_State → Addr) (M : Machine)
    (calls : List (lua_State × Handle)) (L : lua_State)
    (hext : Function.Injective ext) (hnever : ∀ c ∈ calls, c.1 ≠ L) :
    get_glirc ext (run_set_glirc ext M calls) L
        = Except.ok (M.mem (ext L), run_set_glirc ext M calls)
    ∧ ∀ e, get_glirc ext (run_set_glirc ext M calls) L ≠ Except.error e := by
  have hmem : (run_set_glirc ext M calls).mem (ext L) = M.mem (ext L) :=
    run_set_glirc_mem_of_not_called ext calls (ext L) M
      (fun c hc e => hnever c hc (hext e))
  constructor
  · simp [get_glirc, hmem]
  · intro e h
    simp [get_glirc] at h

/-- Witness of the amended C4: the instances 2 and 3 are bound, the instance 1 never is, and
its slot holds 42 from the start. -/
theorem get_glirc_never_bound_witness :
    get_glirc (fun L => L) (run_set_glirc (fun L => L) (fresh 42) [(2, 5), (3, 6)]) 1
        = Except.ok (42, run_set_glirc (fun L => L) (fresh 42) [(2, 5), (3, 6)])
    ∧ ∀ e, get_glirc (fun L => L) (run_set_glirc (fun L => L) (fresh 42) [(2, 5), (3, 6)]) 1
        ≠ Except.error e :=
  get_glirc_never_bound (fun L => L) (fresh 42) [(2, 5), (3, 6)] 1 (fun _ _ h => h)
    (by decide)

/-- C10: `get_glirc(L)` leaves the whole state, the bound-handle slot included, as it was, and
any number of consecutive `get_glirc(L)` calls all return the handle the slot holds. -/
theorem get_glirc_pure_read (ext : lua_State → Addr) (M : Machine) (L : lua_State) :
    get_glirc ext M L = Except.ok (M.mem (ext L), M)
    ∧ ∀ n, get_glirc_repeat ext n M L = Except.ok (List.replicate n (M.mem (ext L)), M) := by
  refine ⟨rfl, ?_⟩
  intro n
  induction n with
  | zero => rfl
  | succ k ih => simp [get_glirc_repeat, get_glirc, ih, List.replicate_succ]

/-! ## Theorems: byte-string adapter -/

/-- The value pushed last is at position `-1`. -/
theorem value_at_neg_one (stk : List ScriptValue) (v : ScriptValue) :
    value_at (stk ++ [v]) (-1) = some v := by
  simp [value_at]

/-- The value pushed last is at the position that counts the values below it, plus one. -/
theorem value_at_length_succ (stk : List ScriptValue) (v : ScriptValue) :
    value_at (stk ++ [v]) ((stk.length + 1 : Nat) : Int) = some v := by
  have h : (0 : Int) < ((stk.length + 1 : Nat) : Int) := by omega
  simp only [value_at, if_pos h, Int.toNat_ofNat, Nat.add_sub_cancel]
  simp

/-- The stack of `L` after a push. -/
theorem lua_push_stack (M : Machine) (L : lua_State) (v : ScriptValue) :
    (lua_push M L v).stack L = M.stack L ++ [v] := by
  simp [lua_push]

/-- The top of the stack of `L` after a push. -/
theorem top_lua_push (M : Machine) (L : lua_State) (v : ScriptValue) :
    top (lua_push M L v) L = some v := by
  simp [top, lua_push]

/-- C5: for every byte buffer given as a `glirc_string` whose `len` bytes are readable,
the empty buffer and buffers with zero bytes included, `push_glirc_string` followed by
`get_glirc_string` at the position of the pushed value (`-1`, or counted from the bottom)
succeeds, and the output has the same length and the same bytes as the buffer. -/
theorem push_get_glirc_string_roundtrip (M : Machine) (L : lua_State) (s out : glirc_string)
    (hvalid : s.len ≤ s.str.length) (i : Int)
    (hpos : i = -1 ∨ i = (((M.stack L).length + 1 : Nat) : Int)) :
    (get_glirc_string (push_glirc_string M L s) L i out).status = Except.ok ()
    ∧ (get_glirc_string (push_glirc_string M L s) L i out).s.len = s.len
    ∧ (get_glirc_string (push_glirc_string M L s) L i out).s.bytes = s.bytes
    ∧ (get_glirc_string (push_glirc_string M L s) L i out).state = push_glirc_string M L s := by
  have hv : value_at ((push_glirc_string M L s).stack L) i
      = some (ScriptValue.string s.bytes) := by
    rw [push_glirc_string, lua_push_stack]
    rcases hpos with h | h
    · rw [h]; exact value_at_neg_one _ _
    · rw [h]; exact value_at_length_succ _ _
  have hlen : s.bytes.length = s.len := by
    simp [glirc_string.bytes, List.length_take, hvalid]
  have hres : get_glirc_string (push_glirc_string M L s) L i out
      = { status := Except.ok (), s := { str := s.bytes, len := s.bytes.length },
          state := push_glirc_string M L s } := by
    simp only [get_glirc_string, hv]
  rw [hres]
  refine ⟨rfl, hlen, ?_, rfl⟩
  show List.take s.bytes.length s.bytes = s.bytes
  exact List.take_length _

/-- Witness of C5: the buffer `hi\0there` read back at position `-1`, and the empty buffer
read back at position 3 above two other values. -/
theorem push_get_glirc_string_roundtrip_witness :
    ((get_glirc_string (push_glirc_string machine_number_record 1 buffer_hi_there) 1 (-1)
          buffer_empty).status = Except.ok ()
      ∧ (get_glirc_string (push_glirc_string machine_number_record 1 buffer_hi_there) 1 (-1)
          buffer_empty).s.len = buffer_hi_there.len
      ∧ (get_glirc_string (push_glirc_string machine_number_record 1 buffer_hi_there) 1 (-1)
          buffer_empty).s.bytes = buffer_hi_there.bytes
      ∧ (get_glirc_string (push_glirc_string machine_number_record 1 buffer_hi_there) 1 (-1)
          buffer_empty).state = push_glirc_string machine_number_record 1 buffer_hi_there)
    ∧ ((get_glirc_string (push_glirc_string machine_number_record 1 buffer_empty) 1 3
          buffer_hi_there).status = Except.ok ()
      ∧ (get_glirc_string (push_glirc_string machine_number_record 1 buffer_empty) 1 3
          buffer_hi_there).s.len = buffer_empty.len
      ∧ (get_glirc_string (push_glirc_string machine_number_record 1 buffer_empty) 1 3
          buffer_hi_there).s.bytes = buffer_empty.bytes
      ∧ (get_glirc_string (push_glirc_string machine_number_record 1 buffer_empty) 1 3
          buffer_hi_there).state = push_glirc_string machine_number_record 1 buffer_empty) :=
  ⟨push_get_glirc_string_roundtrip machine_number_record 1 buffer_hi_there buffer_empty
      (by decide) (-1) (Or.inl rfl),
   push_get_glirc_string_roundtrip machine_number_record 1 buffer_empty buffer_hi_there
      (by decide) 3 (Or.inr rfl)⟩

/-- C6: when the value at position `i` is not a string (a number, a table, or no value at
all), `get_glirc_string(L, i, &s)` fails with `TypeMismatch`, leaves the output `s` as it was
and leaves the state as it was. -/
theorem get_glirc_string_type_mismatch (M : Machine) (L : lua_State) (i : Int)
    (s : glirc_string) (hnot : ∀ b, value_at (M.stack L) i ≠ some (ScriptValue.string b)) :
    (get_glirc_string M L i s).status = Except.error Error.TypeMismatch
    ∧ (get_glirc_string M L i s).s = s
    ∧ (get_glirc_string M L i s).state = M := by
  unfold get_glirc_string
  split
  · rename_i bytes h
    exact absurd h (hnot bytes)
  · exact ⟨rfl, rfl, rfl⟩

/-- Witness of C6: a number at position 1 and a record at position `-1`. -/
theorem get_glirc_string_type_mismatch_witness :
    ((get_glirc_string machine_number_record 1 1 buffer_hi_there).status
          = Except.error Error.TypeMismatch
      ∧ (get_glirc_string machine_number_record 1 1 buffer_hi_there).s = buffer_hi_there
      ∧ (get_glirc_string machine_number_record 1 1 buffer_hi_there).state
          = machine_number_record)
    ∧ ((get_glirc_string machine_number_record 1 (-1) buffer_hi_there).status
          = Except.error Error.TypeMismatch
      ∧ (get_glirc_string machine_number_record 1 (-1) buffer_hi_there).s = buffer_hi_there
      ∧ (get_glirc_string machine_number_record 1 (-1) buffer_hi_there).state
          = machine_number_record) :=
  ⟨get_glirc_string_type_mismatch machine_number_record 1 1 buffer_hi_there
      (fun b h => by
        have h1 : value_at (machine_number_record.stack 1) 1
            = some (ScriptValue.number 3) := rfl
        rw [h1] at h
        cases h),
   get_glirc_string_type_mismatch machine_number_record 1 (-1) buffer_hi_there
      (fun b h => by
        have h1 : value_at (machine_number_record.stack 1) (-1)
            = some (ScriptValue.record []) := rfl
        rw [h1] at h
        cases h)⟩

/-! ## Theorems: array importer -/

/-- The walk over the entries before the first null pointer exports each of them, in order,
and ignores what follows the null pointer. -/
theorem import_walk_terminated (entries : List (List Byte)) (rest : List (Option (List Byte))) :
    import_walk (entries.map some ++ none :: rest) = entries.map import_entry := by
  induction entries with
  | nil => rfl
  | cons cs tl ih =>
    show import_entry cs :: import_walk (tl.map some ++ none :: rest)
        = import_entry cs :: tl.map import_entry
    rw [ih]

/-- C7: for a list of C strings `entries` followed by a null pointer (and by anything after
it), `import_string_array` pushes a sequence whose length is the number of entries before the
first null pointer and whose i-th element is the string of the `strlen` first bytes of the
i-th entry; a list whose first pointer is null gives the empty sequence. -/
theorem import_string_array_terminated (M : Machine) (L : lua_State)
    (entries : List (List Byte)) (rest : List (Option (List Byte))) :
    (∃ elems, top (import_string_array M L (entries.map some ++ none :: rest)) L
          = some (ScriptValue.sequence elems)
        ∧ elems.length = entries.length
        ∧ ∀ i : Nat, elems[i]?
            = Option.map (fun cs : List Byte => ScriptValue.string (cs.take (strlen cs)))
                (entries[i]?))
    ∧ top (import_string_array M L (none :: rest)) L = some (ScriptValue.sequence []) := by
  refine ⟨⟨entries.map import_entry, ?_, ?_, ?_⟩, ?_⟩
  · rw [import_string_array, import_walk_terminated, top_lua_push]
  · simp
  · intro i
    rw [List.getElem?_map]
    rfl
  · rw [import_string_array, top_lua_push]
    rfl

/-! ## Theorems: struct projectors -/

/-- The keys of a record after a store: the key is added at the end unless it is there. -/
theorem keys_setfield (fields : List (String × ScriptValue)) (k : String) (v : ScriptValue) :
    (setfield fields k v).map (fun f => f.1)
      = if k ∈ fields.map (fun f => f.1) then fields.map (fun f => f.1)
        else fields.map (fun f => f.1) ++ [k] := by
  induction fields with
  | nil => simp [setfield]
  | cons f rest ih =>
    obtain ⟨k1, v1⟩ := f
    by_cases h : k1 = k
    · simp [setfield, h]
    · have h2 : ¬ k = k1 := fun e => h e.symm
      simp only [setfield, if_neg h, List.map_cons, ih, List.mem_cons, h2, false_or]
      split <;> simp

/-- The keys of the record built from a host struct depend on the field names only. -/
theorem keys_foldl_congr (hs : HostStruct) :
    ∀ (hs2 : HostStruct) (acc acc2 : List (String × ScriptValue)),
      field_names hs2 = field_names hs →
      acc2.map (fun f => f.1) = acc.map (fun f => f.1) →
      (hs2.foldl (fun a f => setfield a f.1 (project_field f.2)) acc2).map (fun f => f.1)
        = (hs.foldl (fun a f => setfield a f.1 (project_field f.2)) acc).map (fun f => f.1) := by
  induction hs with
  | nil =>
    intro hs2 acc acc2 hn hk
    cases hs2 with
    | nil => simpa using hk
    | cons g tl => simp [field_names] at hn
  | cons f rest ih =>
    intro hs2 acc acc2 hn hk
    cases hs2 with
    | nil => simp [field_names] at hn
    | cons g tl =>
      simp only [field_names, List.map_cons, List.cons.injEq] at hn
      simp only [List.foldl_cons]
      apply ih tl _ _ hn.2
      rw [keys_setfield, keys_setfield, hk, hn.1]

/-- The keys of the record built from a host struct, on top of the keys already there, are
the keys already there and the field names. -/
theorem mem_keys_foldl (hs : HostStruct) :
    ∀ (acc : List (String × ScriptValue)) (k : String),
      k ∈ (hs.foldl (fun a f => setfield a f.1 (project_field f.2)) acc).map (fun f => f.1)
        ↔ k ∈ acc.map (fun f => f.1) ∨ k ∈ field_names hs := by
  induction hs with
  | nil => intro acc k; simp [field_names]
  | cons f rest ih =>
    intro acc k
    simp only [List.foldl_cons]
    rw [ih, keys_setfield]
    have hf : field_names (f :: rest) = f.1 :: field_names rest := rfl
    rw [hf, List.mem_cons]
    by_cases hmem : f.1 ∈ acc.map (fun f => f.1)
    · rw [if_pos hmem]
      constructor
      · rintro (h | h)
        · exact Or.inl h
        · exact Or.inr (Or.inr h)
      · rintro (h | h | h)
        · exact Or.inl h
        · exact Or.inl (h ▸ hmem)
        · exact Or.inr h
    · rw [if_neg hmem, List.mem_append, List.mem_singleton]
      constructor
      · rintro ((h | h) | h)
        · exact Or.inl h
        · exact Or.inr (Or.inl h)
        · exact Or.inr (Or.inr h)
      · rintro (h | h | h)
        · exact Or.inl (Or.inl h)
        · exact Or.inl (Or.inr h)
        · exact Or.inr h

/-- No key occurs twice in the record built from a host struct. -/
theorem nodup_keys_foldl (hs : HostStruct) :
    ∀ (acc : List (String × ScriptValue)), (acc.map (fun f => f.1)).Nodup →
      ((hs.foldl (fun a f => setfield a f.1 (project_field f.2)) acc).map (fun f => f.1)).Nodup := by
  induction hs with
  | nil => intro acc h; simpa using h
  | cons f rest ih =>
    intro acc h
    simp only [List.foldl_cons]
    apply ih
    rw [keys_setfield]
    split
    · exact h
    · rename_i hmem
      rw [List.nodup_append]
      refine ⟨h, List.nodup_singleton _, ?_⟩
      intro a ha hb
      rw [List.mem_singleton] at hb
      exact hmem (hb ▸ ha)

/-- The field names and the layout of the struct with every field empty are those of the
struct itself. -/
theorem blank_layout (hs : HostStruct) :
    layout (blank hs) = layout hs ∧ field_names (blank hs) = field_names hs := by
  constructor
  · simp only [layout, blank, List.map_map]
    apply List.map_congr_left
    intro f _
    obtain ⟨k, v⟩ := f
    cases v <;> rfl
  · simp only [field_names, blank, List.map_map]
    rfl

/-- Two host structs of the same layout have the same field names. -/
theorem field_names_of_layout (hs hs2 : HostStruct) (h : layout hs2 = layout hs) :
    field_names hs2 = field_names hs := by
  have h1 : (layout hs2).map (fun p => p.1) = (layout hs).map (fun p => p.1) := by rw [h]
  simpa [layout, field_names, List.map_map, Function.comp] using h1

/-- The keys of the record on top of the stack after a projection is pushed. -/
theorem pushed_keys_project (M : Machine) (L : lua_State) (hs : HostStruct) :
    pushed_keys (lua_push M L (project hs)) L
      = some ((hs.foldl (fun a f => setfield a f.1 (project_field f.2)) []).map (fun f => f.1)) := by
  simp [pushed_keys, top_lua_push, project]

/-- C8: for every host struct, the record pushed by `push_glirc_chat`, `push_glirc_message`
and `push_glirc_command` has exactly the field names of the struct as its keys, each once, and
the keys are the same for every struct of the same layout, whatever the content of its fields,
the struct with every field empty included. -/
theorem push_glirc_struct_keys (M : Machine) (L : lua_State) (hs hs2 : HostStruct)
    (hlayout : layout hs2 = layout hs) :
    ∃ keys : List String, keys.Nodup ∧ (∀ k, k ∈ keys ↔ k ∈ field_names hs)
      ∧ pushed_keys (push_glirc_chat M L hs) L = some keys
      ∧ pushed_keys (push_glirc_chat M L hs2) L = some keys
      ∧ pushed_keys (push_glirc_chat M L (blank hs)) L = some keys
      ∧ pushed_keys (push_glirc_message M L hs) L = some keys
      ∧ pushed_keys (push_glirc_message M L hs2) L = some keys
      ∧ pushed_keys (push_glirc_message M L (blank hs)) L = some keys
      ∧ pushed_keys (push_glirc_command M L hs) L = some keys
      ∧ pushed_keys (push_glirc_command M L hs2) L = some keys
      ∧ pushed_keys (push_glirc_command M L (blank hs)) L = some keys := by
  have h2 : pushed_keys (lua_push M L (project hs2)) L
      = pushed_keys (lua_push M L (project hs)) L := by
    rw [pushed_keys_project, pushed_keys_project,
      keys_foldl_congr hs hs2 [] [] (field_names_of_layout hs hs2 hlayout) rfl]
  have h0 : pushed_keys (lua_push M L (project (blank hs))) L
      = pushed_keys (lua_push M L (project hs)) L := by
    rw [pushed_keys_project, pushed_keys_project,
      keys_foldl_congr hs (blank hs) [] [] (blank_layout hs).2 rfl]
  have h1 := pushed_keys_project M L hs
  refine ⟨_, nodup_keys_foldl hs [] List.nodup_nil, ?_, h1, h2.trans h1, h0.trans h1,
    h1, h2.trans h1, h0.trans h1, h1, h2.trans h1, h0.trans h1⟩
  intro k
  rw [mem_keys_foldl]
  simp

/-- Witness of C8: the example message and a message of the same layout with other content. -/
theorem push_glirc_struct_keys_witness :
    layout other_message = layout example_message
    ∧ ∃ keys : List String, keys.Nodup ∧ (∀ k, k ∈ keys ↔ k ∈ field_names example_message)
      ∧ pushed_keys (push_glirc_chat (fresh NULL) 1 example_message) 1 = some keys
      ∧ pushed_keys (push_glirc_chat (fresh NULL) 1 other_message) 1 = some keys
      ∧ pushed_keys (push_glirc_chat (fresh NULL) 1 (blank example_message)) 1 = some keys
      ∧ pushed_keys (push_glirc_message (fresh NULL) 1 example_message) 1 = some keys
      ∧ pushed_keys (push_glirc_message (fresh NULL) 1 other_message) 1 = some keys
      ∧ pushed_keys (push_glirc_message (fresh NULL) 1 (blank example_message)) 1 = some keys
      ∧ pushed_keys (push_glirc_command (fresh NULL) 1 example_message) 1 = some keys
      ∧ pushed_keys (push_glirc_command (fresh NULL) 1 other_message) 1 = some keys
      ∧ pushed_keys (push_glirc_command (fresh NULL) 1 (blank example_message)) 1 = some keys :=
  ⟨rfl, push_glirc_struct_keys (fresh NULL) 1 example_message other_message rfl⟩

/-- Reading a field after a store. -/
theorem getfield_setfield (fields : List (String × ScriptValue)) (k1 k : String)
    (v : ScriptValue) :
    getfield (setfield fields k1 v) k = if k1 = k then some v else getfield fields k := by
  induction fields with
  | nil => simp [setfield, getfield]
  | cons f rest ih =>
    obtain ⟨k0, v0⟩ := f
    by_cases h01 : k0 = k1
    · subst h01
      by_cases h : k0 = k <;> simp [setfield, getfield, h]
    · by_cases h0 : k0 = k
      · subst h0
        have h10 : ¬ k1 = k0 := fun e => h01 e.symm
        simp [setfield, getfield, h01, h10]
      · simp [setfield, getfield, h01, h0, ih]

/-- Reading a field of the record built from a host struct: the projection of the last struct
field of that name, or what the record held before. -/
theorem getfield_foldl (hs : HostStruct) (k : String) :
    ∀ acc : List (String × ScriptValue),
      getfield (hs.foldl (fun a f => setfield a f.1 (project_field f.2)) acc) k
        = match field_of hs k with
          | some g => some (project_field g)
          | none => getfield acc k := by
  induction hs with
  | nil => intro acc; rfl
  | cons f rest ih =>
    intro acc
    obtain ⟨k1, g1⟩ := f
    simp only [List.foldl_cons]
    rw [ih, getfield_setfield]
    simp only [field_of]
    cases hrest : field_of rest k with
    | some g => rfl
    | none =>
      by_cases h : k1 = k <;> simp [h]

/-- C9: `push_glirc_message` keeps content and order. For the message with sender `alice` and
parameters `#room` and `hi\0there`, the pushed record is the one with the field `sender` equal
to the string `alice` and the field `params` equal to the sequence of `#room` and `hi\0there`,
the latter with its eight bytes and its zero byte. In general, for a message whose `sender`
field is the buffer `s` and whose `params` field is the list `ps`, the record has `sender`
equal to the bytes of `s` and `params` equal to a sequence as long as `ps` whose i-th element
is the string of the bytes of the i-th parameter. -/
theorem push_glirc_message_content :
    (∀ (M : Machine) (L : lua_State),
      top (push_glirc_message M L example_message) L
        = some (ScriptValue.record
            [("sender", ScriptValue.string bytes_alice),
             ("params", ScriptValue.sequence
                [ScriptValue.string bytes_room, ScriptValue.string bytes_hi_there])]))
    ∧ bytes_hi_there.length = 8 ∧ bytes_hi_there[2]? = some 0
    ∧ ∀ (M : Machine) (L : lua_State) (msg : glirc_message) (s : glirc_string)
        (ps : List glirc_string),
        field_of msg "sender" = some (HostField.bytes s) →
        field_of msg "params" = some (HostField.array ps) →
        ∃ fields elems, top (push_glirc_message M L msg) L = some (ScriptValue.record fields)
          ∧ getfield fields "sender" = some (ScriptValue.string s.bytes)
          ∧ getfield fields "params" = some (ScriptValue.sequence elems)
          ∧ elems.length = ps.length
          ∧ ∀ i : Nat, elems[i]?
              = Option.map (fun p : glirc_string => ScriptValue.string p.bytes) (ps[i]?) := by
  refine ⟨?_, rfl, rfl, ?_⟩
  · intro M L
    rw [push_glirc_message, top_lua_push]
    rfl
  · intro M L msg s ps hs hp
    refine ⟨msg.foldl (fun a f => setfield a f.1 (project_field f.2)) [],
      ps.map (fun p => ScriptValue.string p.bytes), ?_, ?_, ?_, ?_, ?_⟩
    · rw [push_glirc_message, top_lua_push]
      rfl
    · rw [getfield_foldl, hs]
      rfl
    · rw [getfield_foldl, hp]
      rfl
    · simp
    · intro i
      rw [List.getElem?_map]

/-- Witness of C9: the general statement at the message of the example scenario. -/
theorem push_glirc_message_content_witness :
    field_of example_message "sender"
        = some (HostField.bytes { str := bytes_alice ++ [0], len := 5 })
    ∧ field_of example_message "params"
        = some (HostField.array
            [{ str := bytes_room ++ [0], len := 5 }, { str := bytes_hi_there ++ [0], len := 8 }])
    ∧ ∃ fields elems,
        top (push_glirc_message (fresh NULL) 1 example_message) 1
          = some (ScriptValue.record fields)
        ∧ getfield fields "sender"
          = some (ScriptValue.string
              (glirc_string.bytes { str := bytes_alice ++ [0], len := 5 }))
        ∧ getfield fields "params" = some (ScriptValue.sequence elems)
        ∧ elems.length = 2
        ∧ ∀ i : Nat, elems[i]?
            = Option.map (fun p : glirc_string => ScriptValue.string p.bytes)
                ([({ str := bytes_room ++ [0], len := 5 } : glirc_string),
                  { str := bytes_hi_there ++ [0], len := 8 }][i]?) :=
  ⟨rfl, rfl, push_glirc_message_content.2.2.2 (fresh NULL) 1 example_message
      { str := bytes_alice ++ [0], len := 5 }
      [{ str := bytes_room ++ [0], len := 5 }, { str := bytes_hi_there ++ [0], len := 8 }]
      rfl rfl⟩

end Glirc
